import Mathlib

/-!
Verification development for the admin-dashboard repository
(choudharikiranv15/vegam-solutions-task).

The development shallowly embeds the parts of the TypeScript source that the
specification talks about:

* the URL-synchronisation handlers of `src/pages/UsersPage/UsersPage.tsx`
  (`handleSearchChange`, `handleStatusFilterChange`, `handlePaginationChange`);
* the optimistic-update mutation of `src/hooks/useUsers.ts`
  (`useUpdateUserStatus`: `onMutate`, `onError`), over an explicit model of the
  react-query cache (an association list from query keys to cached responses);
* the `UserActions` component of `src/components/tables/UserActions.tsx`
  (confirmation-dialog state machine);
* the cell renderer `renderCellByType` of `DynamicGrid`;
* the query-client retry configuration of `App.tsx`;
* `formatDate` and `useDebounce`, whose implementations are not among the
  provided sources and are therefore modelled from the spec and their tests.

Pure functions become Lean functions; the stateful pieces (URL parameters,
query cache, dialog state) are explicit state passed through step functions.
-/

namespace AdminDashboard

/-! ## Data model (src/types, reconstructed from usage and spec section 3) -/

/-- A user's status: one of two values, per spec section 3. -/
inductive Status
  | active
  | inactive
deriving DecidableEq, Repr

/-- A group membership: identifier and display name (spec section 3). -/
structure Group where
  groupId : String
  groupName : String
deriving DecidableEq, Repr

/-- A user record, as used throughout the source (`userId`, `name`, `email`,
`status`, `createdAt`, `groups`). -/
structure User where
  userId : String
  name : String
  email : String
  status : Status
  createdAt : String
  groups : List Group
deriving DecidableEq, Repr

/-- Payload of a list response: an ordered page of users plus the total
count (`data.users`, `data.totalCount` in the source). -/
structure UsersData where
  users : List User
  totalCount : Nat
deriving DecidableEq, Repr

/-- A cached list response (`UsersApiResponse` in the source): the handlers
access its `data.users` and `data.totalCount` fields. -/
structure UsersApiResponse where
  data : UsersData
deriving DecidableEq, Repr

/-- The status filter of the users page: `'all' | 'active' | 'inactive'`. -/
inductive StatusFilter
  | all
  | active
  | inactive
deriving DecidableEq, Repr

/-- The string written for a status filter into the URL (the filter values are
the strings "all", "active", "inactive" in the source). -/
def StatusFilter.toParamString : StatusFilter → String
  | .all => "all"
  | .active => "active"
  | .inactive => "inactive"

/-! ## URL parameters and the filter handlers (UsersPage.tsx)

The users page touches exactly three search parameters: `page`, `status`
and `query`. A missing parameter means its default (spec section 6), so the
URL state is three optional strings. -/

/-- The URL search parameters used by the users page; `none` means the
parameter is absent from the URL. -/
structure UrlParams where
  page : Option String := none
  status : Option String := none
  query : Option String := none
deriving DecidableEq, Repr

/-- URL effect of `handleSearchChange` (UsersPage.tsx lines 193-208):
`params.set('page', '1')`; then `params.set('query', value)` when `value` is
truthy (non-empty) and `params.delete('query')` otherwise. -/
def handleSearchChange (value : String) (params : UrlParams) : UrlParams :=
  { params with
    page := some "1"
    query := if value = "" then none else some value }

/-- URL effect of `handleStatusFilterChange` (UsersPage.tsx lines 211-224):
`params.set('page', '1')`; then `params.delete('status')` when the value is
`'all'` and `params.set('status', value)` otherwise. -/
def handleStatusFilterChange (value : StatusFilter) (params : UrlParams) : UrlParams :=
  { params with
    page := some "1"
    status := if value = StatusFilter.all then none else some value.toParamString }

/-- URL effect of `handlePaginationChange` (UsersPage.tsx lines 227-239):
with `pageNum = pageIndex + 1`, `params.delete('page')` when `pageNum` is 1
and `params.set('page', pageNum.toString())` otherwise. -/
def handlePaginationChange (pageIndex : Nat) (params : UrlParams) : UrlParams :=
  let pageNum := pageIndex + 1
  { params with
    page := if pageNum = 1 then none else some (toString pageNum) }

/-- A filter change on the users page: a search-text change, a status-filter
change, or a pagination change. -/
inductive FilterEvent
  | searchChange (value : String)
  | statusChange (value : StatusFilter)
  | paginationChange (pageIndex : Nat)
deriving DecidableEq, Repr

/-- Apply one filter change to the URL parameters. -/
def applyFilterEvent (e : FilterEvent) (params : UrlParams) : UrlParams :=
  match e with
  | .searchChange v => handleSearchChange v params
  | .statusChange v => handleStatusFilterChange v params
  | .paginationChange i => handlePaginationChange i params

/-- Apply a sequence of filter changes, left to right. -/
def applyFilterEvents (es : List FilterEvent) (params : UrlParams) : UrlParams :=
  es.foldl (fun p e => applyFilterEvent e p) params

/-! ## The react-query cache and the status-toggle mutation (useUsers.ts)

Query keys in the source are `['users']` (the prefix), and
`['users', 'list', params]` for list results. The cache is an association
list from query keys to cached data; a key can be present with `undefined`
data, hence the value type `Option UsersApiResponse`. -/

/-- The pagination parameters of a list query (`PaginationParams` in the
source): page, pageSize, query text and status filter. -/
structure PaginationParams where
  page : Nat
  pageSize : Nat
  query : String
  status : StatusFilter
deriving DecidableEq, Repr

/-- A query key: either a users list key `['users', 'list', params]`, or a
key outside the `['users']` prefix. -/
inductive QueryKey
  | usersList (params : PaginationParams)
  | outside (name : String)
deriving DecidableEq, Repr

/-- Whether a key matches the `['users']` prefix filter
(`userQueryKeys.all`), as used by `cancelQueries`, `getQueriesData`,
`setQueriesData` and `invalidateQueries` in `useUsers.ts`. -/
def QueryKey.underUsersPrefix : QueryKey → Bool
  | .usersList _ => true
  | .outside _ => false

/-- The query cache: entries from query keys to optionally-present data. -/
structure QueryCache where
  entries : List (QueryKey × Option UsersApiResponse)
deriving DecidableEq, Repr

/-- Look up a key among cache entries (first matching entry). -/
def lookupEntry (es : List (QueryKey × Option UsersApiResponse)) (k : QueryKey) :
    Option (Option UsersApiResponse) :=
  (es.find? (fun e => e.1 == k)).map (fun e => e.2)

/-- The cached data under a key: `none` when the key is absent,
`some d` when the key is present with data `d`. -/
def QueryCache.get (c : QueryCache) (k : QueryKey) : Option (Option UsersApiResponse) :=
  lookupEntry c.entries k

/-- Model of `queryClient.getQueriesData({ queryKey: userQueryKeys.all })`:
all entries whose key is under the `['users']` prefix. -/
def getQueriesData (c : QueryCache) : List (QueryKey × Option UsersApiResponse) :=
  c.entries.filter (fun e => e.1.underUsersPrefix)

/-- Model of `queryClient.setQueriesData({ queryKey: userQueryKeys.all }, updater)`:
apply the updater to the data of every entry under the `['users']` prefix. -/
def setQueriesData (updater : Option UsersApiResponse → Option UsersApiResponse)
    (c : QueryCache) : QueryCache :=
  ⟨c.entries.map (fun e => if e.1.underUsersPrefix then (e.1, updater e.2) else e)⟩

/-- Model of `queryClient.setQueryData(key, data)` on the entry list: replace
the data under the key, or append the entry when the key is absent. -/
def setQueryDataEntries (k : QueryKey) (d : Option UsersApiResponse) :
    List (QueryKey × Option UsersApiResponse) → List (QueryKey × Option UsersApiResponse)
  | [] => [(k, d)]
  | e :: es => if e.1 = k then (k, d) :: es else e :: setQueryDataEntries k d es

/-- Model of `queryClient.setQueryData(key, data)`. -/
def setQueryData (k : QueryKey) (d : Option UsersApiResponse) (c : QueryCache) : QueryCache :=
  ⟨setQueryDataEntries k d c.entries⟩

/-- The optimistic cache updater passed to `setQueriesData` in
`useUpdateUserStatus.onMutate` (useUsers.ts lines 46-57): `undefined` data is
returned unchanged; otherwise every user whose `userId` matches gets the
target status, all else is spread through unchanged. -/
def optimisticUpdater (userId : String) (status : Status) :
    Option UsersApiResponse → Option UsersApiResponse
  | none => none
  | some oldData =>
      some { oldData with
        data := { oldData.data with
          users := oldData.data.users.map (fun user =>
            if user.userId = userId then { user with status := status } else user) } }

/-- Cache effect of `useUpdateUserStatus.onMutate` (useUsers.ts lines 34-62):
snapshot every entry under the `['users']` prefix, then optimistically update
all of them; returns the updated cache and the snapshot (`previousQueries`).
The initial `cancelQueries` call only affects in-flight fetches and is
modelled in the fetch-state semantics below. -/
def updateUserStatusOnMutate (userId : String) (status : Status) (c : QueryCache) :
    QueryCache × List (QueryKey × Option UsersApiResponse) :=
  (setQueriesData (optimisticUpdater userId status) c, getQueriesData c)

/-- Cache effect of `useUpdateUserStatus.onError` (useUsers.ts lines 64-71):
for each snapshotted `(queryKey, data)` pair, `setQueryData(queryKey, data)`. -/
def updateUserStatusOnError (previousQueries : List (QueryKey × Option UsersApiResponse))
    (c : QueryCache) : QueryCache :=
  previousQueries.foldl (fun acc e => setQueryData e.1 e.2 acc) c

/-- Severity of a toast notification (notistack variant). -/
inductive Variant
  | success
  | error
deriving DecidableEq, Repr

/-- A toast notification as enqueued by `enqueueSnackbar`. -/
structure Notification where
  message : String
  variant : Variant
deriving DecidableEq, Repr

/-- Notifications produced by `handleToggleStatus` on mutation failure
(UsersPage.tsx lines 185-187): an error snackbar. -/
def failedToggleNotifications : List Notification :=
  [{ message := "Failed to update user status", variant := Variant.error }]

/-- A status-toggle mutation whose network request fails: `onMutate` runs
(snapshot + optimistic write), then `onError` rolls the cache back from the
snapshot, and the page-level `onError` callback notifies the caller. -/
def updateUserStatusFailed (userId : String) (status : Status) (c : QueryCache) :
    QueryCache × List Notification :=
  let m := updateUserStatusOnMutate userId status c
  (updateUserStatusOnError m.2 m.1, failedToggleNotifications)

/-! ## The UserActions component (UserActions.tsx) -/

/-- Dialog state of the `UserActions` component: whether the deactivation
confirmation dialog is open (`confirmDialogOpen` in the source). -/
structure ActionsState where
  confirmDialogOpen : Bool
deriving DecidableEq, Repr

/-- A recorded invocation of the `onToggleStatus` callback. -/
structure ToggleCall where
  userId : String
  newStatus : Status
deriving DecidableEq, Repr

/-- Model of `handleToggleClick` (UserActions.tsx lines 40-48): for an active
user, open the confirmation dialog and issue no callback; for an inactive
user, call `onToggleStatus(userId, 'active')` directly. Returns the new
dialog state and the list of callback invocations. -/
def handleToggleClick (user : User) (s : ActionsState) : ActionsState × List ToggleCall :=
  if user.status = Status.active then
    ({ s with confirmDialogOpen := true }, [])
  else
    (s, [{ userId := user.userId, newStatus := Status.active }])

/-- Model of `handleConfirmDeactivate` (UserActions.tsx lines 50-53): close
the dialog and call `onToggleStatus(userId, 'inactive')`. -/
def handleConfirmDeactivate (user : User) (s : ActionsState) :
    ActionsState × List ToggleCall :=
  ({ s with confirmDialogOpen := false },
   [{ userId := user.userId, newStatus := Status.inactive }])

/-- Model of `handleCancelDeactivate` (UserActions.tsx lines 55-57): close
the dialog; no callback. -/
def handleCancelDeactivate (s : ActionsState) : ActionsState × List ToggleCall :=
  ({ s with confirmDialogOpen := false }, [])

/-! ## Fetch-state semantics for the cancellation ordering (claim C5) -/

/-- State of the fetch layer: the query cache plus the list fetches currently
in flight, each carrying the response it would deliver on completion. -/
structure FetchState where
  cache : QueryCache
  inFlight : List (QueryKey × UsersApiResponse)
deriving DecidableEq, Repr

/-- The atomic steps of `useUpdateUserStatus.onMutate`, in source order:
`await cancelQueries({ queryKey: userQueryKeys.all })`, then
`getQueriesData` (snapshot), then `setQueriesData` (optimistic write). -/
inductive MutateStep
  | cancelUsersQueries
  | snapshotUsersQueries
  | optimisticWrite (userId : String) (status : Status)
deriving DecidableEq, Repr

/-- The step sequence executed by `onMutate` (useUsers.ts lines 34-58):
cancellation is awaited before the snapshot and the optimistic write. -/
def onMutateSteps (userId : String) (status : Status) : List MutateStep :=
  [MutateStep.cancelUsersQueries, MutateStep.snapshotUsersQueries,
   MutateStep.optimisticWrite userId status]

/-- Semantics of one mutation step on the fetch state: cancellation drops
every in-flight fetch under the `['users']` prefix; the snapshot reads but
does not change state; the optimistic write updates the cache. -/
def stepMutate (s : FetchState) : MutateStep → FetchState
  | .cancelUsersQueries =>
      { s with inFlight := s.inFlight.filter (fun f => !f.1.underUsersPrefix) }
  | .snapshotUsersQueries => s
  | .optimisticWrite uid st =>
      { s with cache := setQueriesData (optimisticUpdater uid st) s.cache }

/-- Run the whole of `onMutate` on the fetch state. -/
def runOnMutate (userId : String) (status : Status) (s : FetchState) : FetchState :=
  (onMutateSteps userId status).foldl stepMutate s

/-- Delivery of a completed fetch: a response lands in the cache only if that
fetch is still in flight; a cancelled fetch delivers nothing. -/
def deliverResponse (k : QueryKey) (resp : UsersApiResponse) (s : FetchState) : FetchState :=
  if (k, resp) ∈ s.inFlight then
    { cache := setQueryData k (some resp) s.cache
      inFlight := s.inFlight.erase (k, resp) }
  else s

/-! ## Debounce (claim C6) -/

/-- Modelled from the spec: the `useDebounce` hook is called by UsersPage.tsx
line 156 (`useDebounce(searchQuery, 300)`) but its implementation is not
among the provided sources. Per the spec (glossary: delaying action until
input has paused for a fixed interval; section 4.1), an edit at time `t`
schedules the debounced value to be emitted at `t + delay`, and a following
edit strictly inside that window cancels the pending emission. Input is a
time-ordered list of `(time, value)` edits; output is the list of `(time,
value)` emissions of the debounced value, each of which can trigger at most
one list fetch keyed by that value. -/
def debounceEmissions (delay : Nat) : List (Nat × String) → List (Nat × String)
  | [] => []
  | [(t, v)] => [(t + delay, v)]
  | (t, v) :: (t2, v2) :: rest =>
      if t2 < t + delay then debounceEmissions delay ((t2, v2) :: rest)
      else (t + delay, v) :: debounceEmissions delay ((t2, v2) :: rest)

/-! ## Query-client retry configuration (App.tsx) -/

/-- Retry budget for queries, from the QueryClient default options in App.tsx
(`retry: 2`). -/
def queriesRetry : Nat := 2

/-- Retry delay in milliseconds, from the QueryClient default options in
App.tsx: `retryDelay: (attemptIndex) => Math.min(1000 * 2 ** attemptIndex,
30000)`. -/
def retryDelay (attemptIndex : Nat) : Nat :=
  min (1000 * 2 ^ attemptIndex) 30000

/-! ## formatDate (spec-modelled) and the metadata-driven cell renderer -/

/-- Month abbreviations of the default locale date string (en-US), used by
the spec-modelled `formatDate`. -/
def monthAbbrev : Nat → String
  | 1 => "Jan"
  | 2 => "Feb"
  | 3 => "Mar"
  | 4 => "Apr"
  | 5 => "May"
  | 6 => "Jun"
  | 7 => "Jul"
  | 8 => "Aug"
  | 9 => "Sep"
  | 10 => "Oct"
  | 11 => "Nov"
  | 12 => "Dec"
  | _ => "???"

/-- Numeric value of a digit character; 0 for non-digits. -/
def digitVal (c : Char) : Nat :=
  if c.isDigit then c.toNat - 48 else 0

/-- Numeric value of a one- or two-digit character run. -/
def twoDigitVal : List Char → Nat
  | [a, b] => 10 * digitVal a + digitVal b
  | [a] => digitVal a
  | _ => 0

/-- Modelled from the spec: `formatDate` lives in `src/utils`, whose
implementation file is not among the provided sources; only its unit tests
(`src/utils/utils.test.ts`) and its caller `renderCellByType` are. Per the
spec section 8 and the tests: with format `'YYYY-MM-DD'` it returns the ISO
year-month-day prefix of the date string; with no format (or any other
format) it returns a locale date string containing the abbreviated month
name, the day and the year (en-US style, e.g. `'Jan 1, 2023'`). -/
def formatDate (dateStr : String) (format : Option String) : String :=
  let cs := dateStr.toList
  match format with
  | some "YYYY-MM-DD" => (cs.take 10).asString
  | _ =>
      let year := (cs.take 4).asString
      let month := twoDigitVal ((cs.drop 5).take 2)
      let day := twoDigitVal ((cs.drop 8).take 2)
      monthAbbrev month ++ " " ++ toString day ++ ", " ++ year

/-- Check that `pat` occurs at the start of `s` (character lists). -/
def prefixMatches : List Char → List Char → Bool
  | [], _ => true
  | _ :: _, [] => false
  | a :: as, b :: bs => a == b && prefixMatches as bs

/-- Check that `pat` occurs contiguously anywhere in `s` (character lists). -/
def charsContain (pat : List Char) : List Char → Bool
  | [] => prefixMatches pat []
  | c :: cs => prefixMatches pat (c :: cs) || charsContain pat cs

/-- Whether `pat` occurs as a contiguous substring of `s`. -/
def containsSub (pat s : String) : Bool :=
  charsContain pat.toList s.toList

/-- The column type tags of the metadata-driven grid; `other` covers every
tag outside the fixed presentation set (the switch default). -/
inductive ColumnType
  | string
  | badge
  | date
  | chiplist
  | other (tag : String)
deriving DecidableEq, Repr

/-- Column metadata (`ColumnMetadata` in the source): key, header, type tag,
optional date format, optional width. -/
structure ColumnMetadata where
  key : String
  header : String
  type : ColumnType
  format : Option String := none
  width : Option Nat := none
deriving DecidableEq, Repr

/-- A cell value as it reaches `renderCellByType`: a string (names, emails,
statuses, date strings), a list of groups, or JavaScript `undefined`. -/
inductive CellValue
  | str (s : String)
  | groups (gs : List Group)
  | undef
deriving DecidableEq, Repr

/-- JavaScript `String(value)` on a cell value: a string is itself, an array
of objects stringifies element-wise to `[object Object]` joined by commas,
and `undefined` stringifies to `"undefined"`. -/
def jsString : CellValue → String
  | .str s => s
  | .groups gs => String.intercalate "," (gs.map (fun _ => "[object Object]"))
  | .undef => "undefined"

/-- MUI chip colors used by the renderer: `success` or `default`. -/
inductive ChipColor
  | success
  | defaultColor
deriving DecidableEq, Repr

/-- The rendered content of a cell, by presentation kind. -/
inductive Rendered
  | text (s : String)
  | chip (label : String) (color : ChipColor)
  | dateText (s : String)
  | groupChips (chips : List (String × String))
  | noGroupsPlaceholder
  | stringified (s : String)
  | renderError
deriving DecidableEq, Repr

/-- Model of `renderCellByType` from `DynamicGrid` (lines 56-100): dispatch
on the column type tag. Tag `'string'` returns the value; `'badge'` renders a
chip labelled with the value, colored `success` exactly when it is
`'active'`; `'date'` renders `formatDate(value, columnMeta.format)`;
`'chiplist'` renders the `'No groups'` placeholder when the value is falsy or
an empty list, and one chip per group (keyed by `groupId`, labelled with
`groupName`) otherwise (a non-empty string reaching this branch would throw
at `groups.map`, modelled as `renderError`); every other tag returns
`String(value)`. -/
def renderCellByType (value : CellValue) (columnMeta : ColumnMetadata) : Rendered :=
  match columnMeta.type with
  | ColumnType.string => Rendered.text (jsString value)
  | ColumnType.badge =>
      Rendered.chip (jsString value)
        (if jsString value = "active" then ChipColor.success else ChipColor.defaultColor)
  | ColumnType.date => Rendered.dateText (formatDate (jsString value) columnMeta.format)
  | ColumnType.chiplist =>
      match value with
      | CellValue.groups [] => Rendered.noGroupsPlaceholder
      | CellValue.groups gs => Rendered.groupChips (gs.map (fun g => (g.groupId, g.groupName)))
      | CellValue.undef => Rendered.noGroupsPlaceholder
      | CellValue.str s => if s = "" then Rendered.noGroupsPlaceholder else Rendered.renderError
  | ColumnType.other _ => Rendered.stringified (jsString value)

/-! ## Concrete sample data used by the witnesses -/

/-- A sample active user. -/
def sampleUser : User :=
  { userId := "u1", name := "Alice", email := "alice@example.com",
    status := Status.active, createdAt := "2023-01-01", groups := [] }

/-- The sample user once deactivated. -/
def sampleUserInactive : User := { sampleUser with status := Status.inactive }

/-- A sample one-user list response. -/
def sampleResp : UsersApiResponse := ⟨⟨[sampleUser], 1⟩⟩

/-- A sample list query key. -/
def sampleKey : QueryKey := QueryKey.usersList ⟨1, 10, "", StatusFilter.all⟩

/-- A sample one-entry cache. -/
def sampleCache : QueryCache := ⟨[(sampleKey, some sampleResp)]⟩

/-- A sample badge column (the users list status column). -/
def sampleBadgeColumn : ColumnMetadata :=
  { key := "status", header := "Status", type := ColumnType.badge }

lemma applyFilterEvents_append (es : List FilterEvent) (e : FilterEvent) (p : UrlParams) :
    applyFilterEvents (es ++ [e]) p = applyFilterEvent e (applyFilterEvents es p) := by
  simp [applyFilterEvents, List.foldl_append]

lemma applyFilterEvent_status_query (e : FilterEvent) (p : UrlParams)
    (hs : p.status ≠ some "all") (hq : p.query ≠ some "") :
    (applyFilterEvent e p).status ≠ some "all" ∧ (applyFilterEvent e p).query ≠ some "" := by
  cases e with
  | searchChange v =>
      refine ⟨hs, ?_⟩
      simp only [applyFilterEvent, handleSearchChange]
      split <;> simp_all
  | statusChange v =>
      refine ⟨?_, hq⟩
      simp only [applyFilterEvent, handleStatusFilterChange]
      split
      · simp
      · cases v <;> simp_all [StatusFilter.toParamString]
  | paginationChange i =>
      exact ⟨hs, hq⟩

lemma applyFilterEvents_status_query (es : List FilterEvent) (p : UrlParams)
    (hs : p.status ≠ some "all") (hq : p.query ≠ some "") :
    (applyFilterEvents es p).status ≠ some "all" ∧ (applyFilterEvents es p).query ≠ some "" := by
  induction es generalizing p with
  | nil => exact ⟨hs, hq⟩
  | cons e es ih =>
      have h := applyFilterEvent_status_query e p hs hq
      simpa [applyFilterEvents, List.foldl_cons] using ih (applyFilterEvent e p) h.1 h.2

/-- Claim C1 (counterexample): the claim states that the parameter `page` is
never present with value `'1'` after any sequence of filter changes, but a
single search-text change writes `page=1` into the URL
(`params.set('page', '1')` in `handleSearchChange`). -/
theorem C1_counterexample :
    (applyFilterEvents [FilterEvent.searchChange "a"] {}).page = some "1" := rfl

/-- Claim C1 (amended): after any sequence of filter changes starting from URL
parameters without `status=all` and without an empty `query`, the URL never
holds `status=all` and never holds an empty `query`; the `page` parameter
reflects the latest page, but with the default omitted only for pagination
changes: search and status-filter changes explicitly write `page=1`, while a
pagination change to page 1 removes the parameter; the latest query and status
values are reflected with their defaults omitted. -/
theorem C1_url_reflects_filters (es : List FilterEvent) (p : UrlParams)
    (hs : p.status ≠ some "all") (hq : p.query ≠ some "") :
    ((applyFilterEvents es p).status ≠ some "all") ∧
    ((applyFilterEvents es p).query ≠ some "") ∧
    (∀ v, (applyFilterEvents (es ++ [FilterEvent.searchChange v]) p).page = some "1") ∧
    (∀ v, (applyFilterEvents (es ++ [FilterEvent.searchChange v]) p).query =
      if v = "" then none else some v) ∧
    (∀ v, (applyFilterEvents (es ++ [FilterEvent.statusChange v]) p).page = some "1") ∧
    (∀ v, (applyFilterEvents (es ++ [FilterEvent.statusChange v]) p).status =
      if v = StatusFilter.all then none else some v.toParamString) ∧
    (∀ i, (applyFilterEvents (es ++ [FilterEvent.paginationChange i]) p).page =
      if i = 0 then none else some (toString (i + 1))) := by
  obtain ⟨h1, h2⟩ := applyFilterEvents_status_query es p hs hq
  refine ⟨h1, h2, ?_, ?_, ?_, ?_, ?_⟩
  · intro v
    rw [applyFilterEvents_append]
    rfl
  · intro v
    rw [applyFilterEvents_append]
    rfl
  · intro v
    rw [applyFilterEvents_append]
    rfl
  · intro v
    rw [applyFilterEvents_append]
    rfl
  · intro i
    rw [applyFilterEvents_append]
    simp only [applyFilterEvent, handlePaginationChange]
    rcases i with _ | j <;> simp

/-- Claim C1 (witness): instantiating the amended theorem on the empty URL and
a pagination change back to the first page, the `page` parameter is absent. -/
theorem C1_url_reflects_filters_witness :
    (applyFilterEvents ([] ++ [FilterEvent.paginationChange 0]) {}).page =
      if 0 = 0 then none else some (toString (0 + 1)) :=
  (C1_url_reflects_filters [] {} (by decide) (by decide)).2.2.2.2.2.2 0

/-! ## Claims C2, C3, C10: optimistic update, rollback, frame property -/

/-- Claim C2: after `onMutate`, every cached list entry (any parameter
combination) has every user whose `userId` matches carrying the target
status; this runs before the network request is issued. -/
theorem C2_optimistic_all_pages (c : QueryCache) (uid : String) (st : Status)
    (kv : QueryKey × Option UsersApiResponse)
    (hpre : kv.1.underUsersPrefix = true)
    (hmem : kv ∈ (updateUserStatusOnMutate uid st c).1.entries)
    (resp : UsersApiResponse) (hresp : kv.2 = some resp)
    (u : User) (hu : u ∈ resp.data.users) (huid : u.userId = uid) :
    u.status = st := by
  simp only [updateUserStatusOnMutate, setQueriesData, List.mem_map] at hmem
  obtain ⟨e, _he, heq⟩ := hmem
  by_cases hp : e.1.underUsersPrefix = true
  · rw [if_pos hp] at heq
    rcases e with ⟨ek, ed⟩
    cases ed with
    | none =>
        rw [← heq] at hresp
        simp [optimisticUpdater] at hresp
    | some old =>
        rw [← heq] at hresp
        simp only [optimisticUpdater, Option.some.injEq] at hresp
        rw [← hresp] at hu
        simp only [List.mem_map] at hu
        obtain ⟨u0, _hu0, hg⟩ := hu
        by_cases hid : u0.userId = uid
        · rw [if_pos hid] at hg
          rw [← hg]
        · rw [if_neg hid] at hg
          rw [← hg] at huid
          exact absurd huid hid
  · rw [if_neg hp] at heq
    rw [← heq] at hpre
    exact absurd hpre hp

/-- Claim C2 (witness): in a one-page cache holding the sample active user,
toggling that user to inactive leaves the cached copy inactive. -/
theorem C2_optimistic_all_pages_witness : sampleUserInactive.status = Status.inactive :=
  C2_optimistic_all_pages sampleCache "u1" Status.inactive
    (sampleKey, some ⟨⟨[sampleUserInactive], 1⟩⟩) (by decide) (by decide)
    ⟨⟨[sampleUserInactive], 1⟩⟩ rfl sampleUserInactive (by decide) rfl

lemma find?_setQueryDataEntries_self (k : QueryKey) (d : Option UsersApiResponse)
    (es : List (QueryKey × Option UsersApiResponse)) :
    (setQueryDataEntries k d es).find? (fun e => e.1 == k) = some (k, d) := by
  induction es with
  | nil => simp [setQueryDataEntries]
  | cons e es ih =>
      by_cases h : e.1 = k
      · simp [setQueryDataEntries, h]
      · simp only [setQueryDataEntries, if_neg h]
        rw [List.find?_cons_of_neg, ih]
        simp [h]

lemma lookupEntry_setQueryDataEntries_self (k : QueryKey) (d : Option UsersApiResponse)
    (es : List (QueryKey × Option UsersApiResponse)) :
    lookupEntry (setQueryDataEntries k d es) k = some d := by
  simp [lookupEntry, find?_setQueryDataEntries_self]

lemma lookupEntry_setQueryDataEntries_other (k1 k : QueryKey) (hk : k1 ≠ k)
    (d : Option UsersApiResponse) (es : List (QueryKey × Option UsersApiResponse)) :
    lookupEntry (setQueryDataEntries k1 d es) k = lookupEntry es k := by
  induction es with
  | nil => simp [setQueryDataEntries, lookupEntry, hk]
  | cons e es ih =>
      by_cases h : e.1 = k1
      · simp only [setQueryDataEntries, if_pos h, lookupEntry]
        rw [List.find?_cons_of_neg, List.find?_cons_of_neg]
        · simp [h, hk]
        · simp [hk]
      · simp only [setQueryDataEntries, if_neg h, lookupEntry]
        by_cases h2 : e.1 = k
        · rw [List.find?_cons_of_pos, List.find?_cons_of_pos] <;> simp [h2]
        · rw [List.find?_cons_of_neg, List.find?_cons_of_neg]
          · exact ih
          · simp [h2]
          · simp [h2]

lemma get_setQueryData_self (k : QueryKey) (d : Option UsersApiResponse) (c : QueryCache) :
    (setQueryData k d c).get k = some d :=
  lookupEntry_setQueryDataEntries_self k d c.entries

lemma get_setQueryData_other (k1 k : QueryKey) (hk : k1 ≠ k)
    (d : Option UsersApiResponse) (c : QueryCache) :
    (setQueryData k1 d c).get k = c.get k :=
  lookupEntry_setQueryDataEntries_other k1 k hk d c.entries

lemma get_rollback_not_mem (snapshot : List (QueryKey × Option UsersApiResponse))
    (k : QueryKey) (h : ∀ e ∈ snapshot, e.1 ≠ k) (c : QueryCache) :
    (updateUserStatusOnError snapshot c).get k = c.get k := by
  induction snapshot generalizing c with
  | nil => rfl
  | cons e es ih =>
      have he : e.1 ≠ k := h e (List.mem_cons_self e es)
      have hrest : ∀ x ∈ es, x.1 ≠ k := fun x hx => h x (List.mem_cons_of_mem e hx)
      calc (updateUserStatusOnError (e :: es) c).get k
          = (updateUserStatusOnError es (setQueryData e.1 e.2 c)).get k := rfl
        _ = (setQueryData e.1 e.2 c).get k := ih hrest (setQueryData e.1 e.2 c)
        _ = c.get k := get_setQueryData_other e.1 k he e.2 c

lemma get_rollback_mem (snapshot : List (QueryKey × Option UsersApiResponse))
    (hnd : (snapshot.map Prod.fst).Nodup)
    (kv : QueryKey × Option UsersApiResponse) (hmem : kv ∈ snapshot) (c : QueryCache) :
    (updateUserStatusOnError snapshot c).get kv.1 = some kv.2 := by
  induction snapshot generalizing c with
  | nil => cases hmem
  | cons e es ih =>
      simp only [List.map_cons, List.nodup_cons] at hnd
      rcases List.mem_cons.mp hmem with h | h
      · subst h
        have hrest : ∀ x ∈ es, x.1 ≠ kv.1 := by
          intro x hx hcontra
          exact hnd.1 (hcontra ▸ List.mem_map_of_mem Prod.fst hx)
        calc (updateUserStatusOnError (kv :: es) c).get kv.1
            = (updateUserStatusOnError es (setQueryData kv.1 kv.2 c)).get kv.1 := rfl
          _ = (setQueryData kv.1 kv.2 c).get kv.1 :=
              get_rollback_not_mem es kv.1 hrest _
          _ = some kv.2 := get_setQueryData_self kv.1 kv.2 c
      · exact ih hnd.2 h (setQueryData e.1 e.2 c)

lemma lookupEntry_of_mem (es : List (QueryKey × Option UsersApiResponse))
    (hnd : (es.map Prod.fst).Nodup)
    (kv : QueryKey × Option UsersApiResponse) (hmem : kv ∈ es) :
    lookupEntry es kv.1 = some kv.2 := by
  induction es with
  | nil => cases hmem
  | cons e es ih =>
      simp only [List.map_cons, List.nodup_cons] at hnd
      rcases List.mem_cons.mp hmem with h | h
      · subst h
        simp [lookupEntry]
      · have hne : e.1 ≠ kv.1 := by
          intro hcontra
          exact hnd.1 (hcontra ▸ List.mem_map_of_mem Prod.fst h)
        simp only [lookupEntry]
        rw [List.find?_cons_of_neg]
        · exact ih hnd.2 h
        · simp [hne]

lemma snapshot_keys_nodup (c : QueryCache) (hnd : (c.entries.map Prod.fst).Nodup) :
    ((getQueriesData c).map Prod.fst).Nodup :=
  hnd.sublist (List.Sublist.map Prod.fst (List.filter_sublist c.entries))

/-- Claim C3: when a status-toggle mutation fails, the rollback in `onError`
restores, under every snapshotted key, exactly the pre-mutation data, and the
caller is notified through an error notification. -/
theorem C3_rollback_restores (c : QueryCache) (hnd : (c.entries.map Prod.fst).Nodup)
    (uid : String) (st : Status)
    (kv : QueryKey × Option UsersApiResponse)
    (hmem : kv ∈ (updateUserStatusOnMutate uid st c).2) :
    (updateUserStatusFailed uid st c).1.get kv.1 = c.get kv.1 ∧
    Notification.mk "Failed to update user status" Variant.error ∈
      (updateUserStatusFailed uid st c).2 := by
  constructor
  · have hsnap : kv ∈ getQueriesData c := hmem
    have h1 : (updateUserStatusFailed uid st c).1.get kv.1 = some kv.2 :=
      get_rollback_mem (getQueriesData c) (snapshot_keys_nodup c hnd) kv hsnap _
    have h2 : c.get kv.1 = some kv.2 :=
      lookupEntry_of_mem c.entries hnd kv (List.mem_of_mem_filter hsnap)
    rw [h1, h2]
  · simp [updateUserStatusFailed, failedToggleNotifications]

/-- Claim C3 (witness): in the one-entry sample cache, a failed deactivation
of the sample user leaves the cache entry equal to its pre-mutation value and
emits the error notification. -/
theorem C3_rollback_restores_witness :
    (updateUserStatusFailed "u1" Status.inactive sampleCache).1.get sampleKey =
      sampleCache.get sampleKey ∧
    Notification.mk "Failed to update user status" Variant.error ∈
      (updateUserStatusFailed "u1" Status.inactive sampleCache).2 :=
  C3_rollback_restores sampleCache (by decide) "u1" Status.inactive
    (sampleKey, some sampleResp) (by decide)

lemma map_eq_self_of_fixed {α : Type} (f : α → α) (l : List α)
    (h : ∀ x ∈ l, f x = x) : l.map f = l := by
  induction l with
  | nil => rfl
  | cons x xs ih =>
      simp only [List.map_cons]
      rw [h x (List.mem_cons_self x xs), ih (fun y hy => h y (List.mem_cons_of_mem x hy))]

/-- Claim C10: the optimistic updater is a pure frame-preserving map: it
leaves `undefined` entries `undefined`; it preserves `totalCount` and the
number and order of users; for each position it changes at most the `status`
field, and only for users whose `userId` matches; a page without the user is
returned structurally equal to its input. -/
theorem C10_updater_frame (uid : String) (st : Status) (resp newResp : UsersApiResponse)
    (heq : optimisticUpdater uid st (some resp) = some newResp) :
    optimisticUpdater uid st none = none ∧
    newResp.data.totalCount = resp.data.totalCount ∧
    newResp.data.users.length = resp.data.users.length ∧
    (∀ i, (h : i < resp.data.users.length) → (h2 : i < newResp.data.users.length) →
      (newResp.data.users[i].userId = resp.data.users[i].userId ∧
       newResp.data.users[i].name = resp.data.users[i].name ∧
       newResp.data.users[i].email = resp.data.users[i].email ∧
       newResp.data.users[i].createdAt = resp.data.users[i].createdAt ∧
       newResp.data.users[i].groups = resp.data.users[i].groups) ∧
      (resp.data.users[i].userId = uid → newResp.data.users[i].status = st) ∧
      (resp.data.users[i].userId ≠ uid → newResp.data.users[i] = resp.data.users[i])) ∧
    ((∀ u ∈ resp.data.users, u.userId ≠ uid) → newResp = resp) := by
  simp only [optimisticUpdater, Option.some.injEq] at heq
  subst heq
  refine ⟨rfl, rfl, by simp, ?_, ?_⟩
  · intro i h h2
    simp only [List.getElem_map]
    by_cases hid : resp.data.users[i].userId = uid
    · rw [if_pos hid]
      exact ⟨⟨rfl, rfl, rfl, rfl, rfl⟩, fun _ => rfl, fun hn => absurd hid hn⟩
    · rw [if_neg hid]
      exact ⟨⟨rfl, rfl, rfl, rfl, rfl⟩, fun hy => absurd hy hid, fun _ => rfl⟩
  · intro hnone
    have : resp.data.users.map (fun user =>
        if user.userId = uid then { user with status := st } else user) =
        resp.data.users :=
      map_eq_self_of_fixed _ _ (fun u hu => if_neg (hnone u hu))
    rcases resp with ⟨⟨users, tc⟩⟩
    simp only at this
    simp [this]

/-- Claim C10 (witness): applied to the sample one-user page, the updater
keeps `undefined` as `undefined` and preserves the total count. -/
theorem C10_updater_frame_witness :
    optimisticUpdater "u1" Status.inactive none = none ∧
    (⟨⟨[sampleUserInactive], 1⟩⟩ : UsersApiResponse).data.totalCount =
      sampleResp.data.totalCount := by
  have h := C10_updater_frame "u1" Status.inactive sampleResp
    ⟨⟨[sampleUserInactive], 1⟩⟩ (by decide)
  exact ⟨h.1, h.2.1⟩

/-! ## Claims C4-C9 -/

/-- Claim C4: clicking the toggle on an active user opens the confirmation
dialog and issues no callback; clicking on an inactive user immediately calls
`onToggleStatus` with `'active'` and opens no dialog; confirming the dialog
issues `onToggleStatus` with `'inactive'`; cancelling the dialog never calls
the callback. -/
theorem C4_confirm_before_deactivate (user : User) (s : ActionsState) :
    (user.status = Status.active →
      handleToggleClick user s = ({ s with confirmDialogOpen := true }, [])) ∧
    (user.status = Status.inactive →
      handleToggleClick user s =
        (s, [{ userId := user.userId, newStatus := Status.active }])) ∧
    handleConfirmDeactivate user s =
      ({ s with confirmDialogOpen := false },
       [{ userId := user.userId, newStatus := Status.inactive }]) ∧
    handleCancelDeactivate s = ({ s with confirmDialogOpen := false }, []) := by
  refine ⟨?_, ?_, rfl, rfl⟩
  · intro h
    simp [handleToggleClick, h]
  · intro h
    simp [handleToggleClick, h]

/-- Claim C4 (witness): clicking the toggle on the sample active user opens
the dialog with no callback call. -/
theorem C4_confirm_before_deactivate_witness :
    handleToggleClick sampleUser { confirmDialogOpen := false } =
      ({ confirmDialogOpen := true }, []) :=
  (C4_confirm_before_deactivate sampleUser { confirmDialogOpen := false }).1 rfl

/-- Claim C5: `onMutate` awaits `cancelQueries` on the `['users']` prefix as
its first step, before the optimistic write; consequently after `onMutate`
no users-prefix fetch is in flight, and delivering any users-prefix response
afterwards is a no-op, so stale pre-mutation list data cannot overwrite the
optimistic write. -/
theorem C5_cancel_supersedes_inflight (uid : String) (st : Status) (s : FetchState) :
    onMutateSteps uid st =
      [MutateStep.cancelUsersQueries, MutateStep.snapshotUsersQueries,
       MutateStep.optimisticWrite uid st] ∧
    (∀ f ∈ (runOnMutate uid st s).inFlight, f.1.underUsersPrefix = false) ∧
    (∀ k resp, k.underUsersPrefix = true →
      deliverResponse k resp (runOnMutate uid st s) = runOnMutate uid st s) := by
  have hfl : (runOnMutate uid st s).inFlight =
      s.inFlight.filter (fun f => !f.1.underUsersPrefix) := rfl
  have hmemf : ∀ f ∈ (runOnMutate uid st s).inFlight, f.1.underUsersPrefix = false := by
    intro f hf
    rw [hfl] at hf
    have := (List.mem_filter.mp hf).2
    simpa using this
  refine ⟨rfl, hmemf, ?_⟩
  intro k resp hk
  have hnot : (k, resp) ∉ (runOnMutate uid st s).inFlight := by
    intro hmem
    have := hmemf (k, resp) hmem
    rw [hk] at this
    cases this
  simp [deliverResponse, hnot]

/-- Claim C5 (witness): on a state with one in-flight users-list fetch,
running `onMutate` leaves no users-prefix fetch in flight and the stale
response can no longer land. -/
theorem C5_cancel_supersedes_inflight_witness :
    deliverResponse sampleKey sampleResp
        (runOnMutate "u1" Status.inactive
          { cache := sampleCache, inFlight := [(sampleKey, sampleResp)] }) =
      runOnMutate "u1" Status.inactive
        { cache := sampleCache, inFlight := [(sampleKey, sampleResp)] } :=
  (C5_cancel_supersedes_inflight "u1" Status.inactive
    { cache := sampleCache, inFlight := [(sampleKey, sampleResp)] }).2.2
    sampleKey sampleResp rfl

/-- Claim C6: for a nonempty sequence of search edits in which every edit
falls strictly within 300 ms of the previous one, the debounced value is
emitted exactly once, carrying the final edited value, so at most one list
fetch is issued and its key holds the final search text. -/
theorem C6_debounce_single_fetch (edits : List (Nat × String)) (hne : edits ≠ [])
    (hchain : edits.Chain' (fun a b => b.1 < a.1 + 300)) :
    debounceEmissions 300 edits =
      [((edits.getLast hne).1 + 300, (edits.getLast hne).2)] := by
  induction edits with
  | nil => exact absurd rfl hne
  | cons a tail ih =>
      rcases a with ⟨t, v⟩
      cases tail with
      | nil => rfl
      | cons b rest =>
          rcases b with ⟨t2, v2⟩
          rw [List.chain'_cons] at hchain
          have hlt : t2 < t + 300 := hchain.1
          have hrec := ih (List.cons_ne_nil _ _) hchain.2
          have hunf : debounceEmissions 300 ((t, v) :: (t2, v2) :: rest) =
              debounceEmissions 300 ((t2, v2) :: rest) := by
            simp [debounceEmissions, hlt]
          rw [hunf, hrec, List.getLast_cons (List.cons_ne_nil _ _)]

/-- Claim C6 (witness): typing "al", "ali", "alice" at 0, 100 and 200 ms
yields the single debounced emission ("alice", at 500 ms). -/
theorem C6_debounce_single_fetch_witness :
    debounceEmissions 300 [(0, "al"), (100, "ali"), (200, "alice")] = [(500, "alice")] :=
  C6_debounce_single_fetch [(0, "al"), (100, "ali"), (200, "alice")]
    (by simp) (by simp [List.chain'_cons])

/-- Claim C7: failed fetches are retried at most `queriesRetry = 2` times;
the delay before retry attempt `i` is `min(1000 * 2 ^ i, 30000)` ms, which is
exact doubling (1 s, 2 s, 4 s, ...) below the cap and 30 s from attempt 5
on. -/
theorem C7_retry_backoff :
    queriesRetry = 2 ∧
    (∀ i, retryDelay i = min (1000 * 2 ^ i) 30000) ∧
    (∀ i, retryDelay i ≤ 30000) ∧
    (∀ i, i < 5 → retryDelay i = 1000 * 2 ^ i) ∧
    (∀ i, 5 ≤ i → retryDelay i = 30000) := by
  refine ⟨rfl, fun i => rfl, fun i => min_le_right _ _, ?_, ?_⟩
  · intro i hi
    interval_cases i <;> decide
  · intro i hi
    have h2 : (2 : Nat) ^ 5 ≤ 2 ^ i := Nat.pow_le_pow_right (by norm_num) hi
    have h : 30000 ≤ 1000 * 2 ^ i := by
      calc (30000 : Nat) ≤ 1000 * 2 ^ 5 := by norm_num
        _ ≤ 1000 * 2 ^ i := Nat.mul_le_mul_left 1000 h2
    simpa [retryDelay] using min_eq_right h

/-- Claim C7 (witness): the delay is 8 s before attempt 3 and capped at 30 s
at attempt 5. -/
theorem C7_retry_backoff_witness :
    retryDelay 3 = 1000 * 2 ^ 3 ∧ retryDelay 5 = 30000 :=
  ⟨C7_retry_backoff.2.2.2.1 3 (by norm_num), C7_retry_backoff.2.2.2.2 5 (by norm_num)⟩

/-- Claim C8: `renderCellByType` dispatches purely on the column type tag (it
is a pure function of the cell value and the column metadata): `'string'`
renders the value as plain text; `'badge'` renders a status chip colored
`success` exactly for `'active'`; `'date'` renders `formatDate(value,
format)`; `'chiplist'` renders the placeholder for an absent or empty group
list and one tag per group otherwise; any other tag falls back to
`String(value)`. -/
theorem C8_render_dispatch (meta : ColumnMetadata) (s : String) (gs : List Group)
    (v : CellValue) :
    (meta.type = ColumnType.string →
      renderCellByType (CellValue.str s) meta = Rendered.text s) ∧
    (meta.type = ColumnType.badge →
      renderCellByType (CellValue.str s) meta =
        Rendered.chip s
          (if s = "active" then ChipColor.success else ChipColor.defaultColor)) ∧
    (meta.type = ColumnType.date →
      renderCellByType (CellValue.str s) meta =
        Rendered.dateText (formatDate s meta.format)) ∧
    (meta.type = ColumnType.chiplist →
      renderCellByType (CellValue.groups gs) meta =
        (if gs = [] then Rendered.noGroupsPlaceholder
         else Rendered.groupChips (gs.map (fun g => (g.groupId, g.groupName)))) ∧
      renderCellByType CellValue.undef meta = Rendered.noGroupsPlaceholder) ∧
    (∀ tag, meta.type = ColumnType.other tag →
      renderCellByType v meta = Rendered.stringified (jsString v)) := by
  refine ⟨?_, ?_, ?_, ?_, ?_⟩
  · intro h
    simp [renderCellByType, h, jsString]
  · intro h
    simp [renderCellByType, h, jsString]
  · intro h
    simp [renderCellByType, h, jsString]
  · intro h
    refine ⟨?_, by simp [renderCellByType, h]⟩
    cases gs with
    | nil => simp [renderCellByType, h]
    | cons g gs => simp [renderCellByType, h]
  · intro tag h
    simp [renderCellByType, h]

/-- Claim C8 (witness): on the sample badge column, the value `'active'`
renders as a success-colored chip. -/
theorem C8_render_dispatch_witness :
    renderCellByType (CellValue.str "active") sampleBadgeColumn =
      Rendered.chip "active"
        (if "active" = "active" then ChipColor.success else ChipColor.defaultColor) :=
  (C8_render_dispatch sampleBadgeColumn "active" [] CellValue.undef).2.1 rfl

/-- Claim C9: `formatDate` with format `'YYYY-MM-DD'` on the sample ISO
timestamp returns `'2023-05-15'`; with no format, the result for
`'2023-01-01'` contains the year `2023` and the month abbreviation `Jan`. -/
theorem C9_formatDate_examples :
    formatDate "2023-05-15T10:00:00.000Z" (some "YYYY-MM-DD") = "2023-05-15" ∧
    containsSub "2023" (formatDate "2023-01-01" none) = true ∧
    containsSub "Jan" (formatDate "2023-01-01" none) = true := by
  refine ⟨by decide, by decide, by decide⟩

end AdminDashboard
